import Mathlib

/-!
Verification of the recommendation-request pipeline of `med_assistant.py`.

The development shallowly embeds the pipeline logic of the source file:
character-list models of the Python calls `str.replace` and `str.split('.')`, the
response formatter, the file-ingestion dispatch, the prompt assembler, the
button handler that guards the generation call, and the module-level
credential guard.  External effects (pandas parsing, the Gemini backend
call) are modelled as explicit parameters ranging over their possible
outcomes: a raised exception corresponds to `Option.none` / `Except.error`.
-/

/-! ### Character-list string primitives

`startsWithPat pat s` decides whether `pat` occurs at the head of `s`;
`containsPat pat s` decides whether `pat` occurs anywhere in `s`;
`replaceAll pat repl s` is the embedding of the Python call `s.replace(pat, repl)`
(leftmost, non-overlapping, replace-all; the special Python behaviour on an
empty pattern is never exercised here, the guard makes the empty pattern a
no-op). -/

def startsWithPat : List Char → List Char → Bool
  | [], _ => true
  | _ :: _, [] => false
  | p :: ps, c :: cs => p == c && startsWithPat ps cs

def containsPat (pat : List Char) : List Char → Bool
  | [] => startsWithPat pat []
  | c :: cs => startsWithPat pat (c :: cs) || containsPat pat cs

/-- `pat` occurs as a contiguous substring of `s`. -/
def Occurs (pat s : List Char) : Prop := ∃ x y, s = x ++ pat ++ y

set_option linter.unusedVariables false in
def replaceAll (pat repl : List Char) (s : List Char) : List Char :=
  match s with
  | [] => []
  | c :: cs =>
    if h : pat ≠ [] ∧ startsWithPat pat (c :: cs) = true then
      repl ++ replaceAll pat repl (List.drop pat.length (c :: cs))
    else
      c :: replaceAll pat repl cs
termination_by s.length
decreasing_by
  · simp only [List.length_drop, List.length_cons]
    have hp : 0 < pat.length := List.length_pos.mpr h.1
    omega
  · simp only [List.length_cons]
    omega

/-- String-level wrapper: the embedding of Python `s.replace(pat, repl)`. -/
def pyReplace (s pat repl : String) : String := ⟨replaceAll pat.data repl.data s.data⟩

/-- No occurrence of `pat` in `s ++ pat` begins strictly inside `s`: the
appended copy of `pat` is the leftmost match.  (An occurrence beginning
inside `s` would lie entirely within `(s ++ pat).dropLast`.) -/
def onlyFinalMatch (pat s : List Char) : Prop :=
  containsPat pat ((s ++ pat).dropLast) = false

instance (pat s : List Char) : Decidable (onlyFinalMatch pat s) :=
  inferInstanceAs (Decidable (containsPat pat ((s ++ pat).dropLast) = false))

/-! ### The response formatter (`format_recommendation_text`, source lines 17-35)

The source performs three successive `str.replace` calls on the raw model
output, turning each known heading phrase into an HTML heading fragment. -/

def mrPhrase : String := "Medication Recommendations"

def dgPhrase : String := "Dosage Guidelines"

def paPhrase : String := "Practical Activities"

def mrHeading : String :=
  "<h4 class=\"sub-section-header\"><i class=\"fas fa-pills section-icon\"></i> Medication Recommendations</h4>"

def dgHeading : String :=
  "<h4 class=\"sub-section-header\"><i class=\"fas fa-syringe section-icon\"></i> Dosage Guidelines</h4>"

def paHeading : String :=
  "<h4 class=\"sub-section-header\"><i class=\"fas fa-walking section-icon\"></i> Practical Activities</h4>"

def format_recommendation_text (text : String) : String :=
  pyReplace (pyReplace (pyReplace text mrPhrase mrHeading) dgPhrase dgHeading) paPhrase paHeading

/-- Whether any of the three recognized heading phrases occurs in `s`. -/
def containsAnyHeading (s : String) : Bool :=
  containsPat mrPhrase.data s.data || containsPat dgPhrase.data s.data ||
    containsPat paPhrase.data s.data

/-! ### File ingestion (source lines 157-178)

`uploaded_file.name.split('.')[-1].lower()` is embedded by `splitOnDot`
(Python `str.split('.')`), `getLastD` (the `[-1]` index — `split` never
returns an empty list) and `Char.toLower`.  The pandas call
`pd.read_csv`/`pd.read_excel` followed by `df.to_string()` is external;
its outcome is a parameter: `some t` is a successful parse rendered as `t`,
`none` is a raised exception (caught by the `except` branch of the source). -/

def splitOnDot : List Char → List (List Char)
  | [] => [[]]
  | c :: cs =>
    if c = '.' then [] :: splitOnDot cs
    else
      match splitOnDot cs with
      | [] => [[c]]
      | seg :: segs => (c :: seg) :: segs

def lowerString (s : String) : String := ⟨s.data.map Char.toLower⟩

def fileExtension (name : String) : String :=
  ⟨((splitOnDot name.data).getLastD []).map Char.toLower⟩

inductive IngestMessage where
  | noMessage
  | successShown
  | docxWarning
  | unsupportedError
  | parseError
deriving DecidableEq

def docxPlaceholder (name : String) : String :=
  "Uploaded DOCX file: " ++ name ++ ". Content not parsed automatically in this demo."

/-- The ingestion block: `upload = none` means no file was uploaded;
`upload = some (name, parseOutcome)` carries the filename and the outcome of
the (external) pandas parse of the uploaded bytes.  Returns the user-facing
message kind together with the resulting `file_content` string. -/
def ingestUploadedFile (upload : Option (String × Option String)) : IngestMessage × String :=
  match upload with
  | none => (.noMessage, "")
  | some (name, parseOutcome) =>
    if fileExtension name = "csv" then
      match parseOutcome with
      | some t => (.successShown, t)
      | none => (.parseError, "")
    else if fileExtension name = "xlsx" then
      match parseOutcome with
      | some t => (.successShown, t)
      | none => (.parseError, "")
    else if fileExtension name = "docx" then
      (.docxWarning, docxPlaceholder name)
    else
      (.unsupportedError, "")

/-! ### Prompt assembly (source lines 189-204) -/

/-- Patient fields as the Streamlit widgets deliver them: `name`, `gender`
and `history` are strings whose absence is the empty string (the widget
defaults); `age` and `weight` are `None`-able numeric inputs.  The weight is
carried as the decimal rendering of the Python float (what `f"{w}"`
produces), which is never the empty string. -/
structure PatientContext where
  name : String
  age : Option Nat
  weight : Option String
  gender : String
  history : String

def promptPreamble : String :=
  "As a highly knowledgeable medical AI assistant, provide comprehensive recommendations for a patient based on the following information. Include suggested medicines, appropriate dosages, and practical activities the patient can do to aid healing. If any crucial patient information (like age or weight) is missing and relevant for better recommendations, please explicitly state what information is needed and why. Format your response clearly with sections for \x27Medication Recommendations\x27, \x27Dosage Guidelines\x27, and \x27Practical Activities\x27.\n\n"

def patientFieldBlock (ctx : PatientContext) : String :=
  ("Patient Name: " ++ (if ctx.name = "" then "Not provided" else ctx.name) ++ "\n")
    ++ ("Patient Age: " ++
        (match ctx.age with | some a => toString a | none => "Not provided") ++ "\n")
    ++ ("Patient Weight: " ++
        (match ctx.weight with | some w => w | none => "Not provided") ++ " kg\n")
    ++ ("Patient Gender: " ++ (if ctx.gender = "" then "Not provided" else ctx.gender) ++ "\n")
    ++ ("Medical History: " ++
        (if ctx.history = "" then "None provided" else ctx.history) ++ "\n")

def assemblePrompt (ctx : PatientContext) (file_content symptoms : String) : String :=
  promptPreamble ++ patientFieldBlock ctx
    ++ (if file_content = "" then ""
        else "Uploaded Exam Results:\n" ++ file_content ++ "\n\n")
    ++ ("Symptoms/Condition: " ++ symptoms ++ "\n\nRecommendations:")

/-! ### The Generate-Recommendation handler (source lines 184-222)

`backend prompt` models `model.generate_content(prompt)` followed by
`response.text`: `Except.ok t` is an extracted text `t`, `Except.error e` is
any raised exception (missing candidates/parts, transport failure, ...),
caught by the `except` branch of the source.  The `Nat` component counts how many
backend invocations were made. -/

inductive PipelineResult where
  | warned
  | shown (formatted : String)
  | errorShown (msg : String)
deriving DecidableEq

def runPipeline (ctx : PatientContext) (file_content symptoms : String)
    (backend : String → Except String String) : PipelineResult × Nat :=
  if symptoms = "" ∧ file_content = "" then (.warned, 0)
  else
    match backend (assemblePrompt ctx file_content symptoms) with
    | .ok text => (.shown (format_recommendation_text text), 1)
    | .error e => (.errorShown e, 1)

/-! ### The module-level credential guard (source lines 8-14)

`st.secrets["GEMINI_API_KEY"]` raises when the key is absent; the `except`
branch shows an error and calls `st.stop()`, which halts the script before
any widget or handler runs, so the generation model is never invoked. -/

inductive AppResult where
  | configErrorStopped
  | ran (r : PipelineResult)
deriving DecidableEq

def runApp (apiKey : Option String) (ctx : PatientContext) (file_content symptoms : String)
    (backend : String → Except String String) : AppResult × Nat :=
  match apiKey with
  | none => (.configErrorStopped, 0)
  | some _ =>
    let r := runPipeline ctx file_content symptoms backend
    (.ran r.1, r.2)

def janeContext : PatientContext := ⟨"Jane Doe", some 34, some "62.5", "Female", "asthma"⟩

def janePrompt : String := assemblePrompt janeContext "" "persistent cough for 5 days"

/-! ### Lemmas about the primitives -/

theorem startsWithPat_iff (p : List Char) : ∀ s : List Char,
    startsWithPat p s = true ↔ ∃ t, s = p ++ t := by
  induction p with
  | nil => intro s; simp [startsWithPat]
  | cons a ps ih =>
    intro s
    cases s with
    | nil =>
      simp [startsWithPat]
    | cons c cs =>
      simp only [startsWithPat, Bool.and_eq_true, beq_iff_eq, ih, List.cons_append]
      constructor
      · rintro ⟨rfl, t, rfl⟩
        exact ⟨t, rfl⟩
      · rintro ⟨t, h⟩
        injection h with h1 h2
        exact ⟨h1.symm, t, h2⟩

theorem containsPat_iff (pat : List Char) : ∀ s : List Char,
    containsPat pat s = true ↔ Occurs pat s := by
  intro s
  induction s with
  | nil =>
    simp only [containsPat, startsWithPat_iff, Occurs]
    constructor
    · rintro ⟨t, h⟩
      exact ⟨[], t, h⟩
    · rintro ⟨x, y, h⟩
      have h' : x ++ pat ++ y = [] := h.symm
      rcases List.append_eq_nil.mp h' with ⟨h1, rfl⟩
      rcases List.append_eq_nil.mp h1 with ⟨rfl, rfl⟩
      exact ⟨[], rfl⟩
  | cons c cs ih =>
    simp only [containsPat, Bool.or_eq_true, startsWithPat_iff, ih, Occurs]
    constructor
    · rintro (⟨t, h⟩ | ⟨x, y, h⟩)
      · exact ⟨[], t, by simpa using h⟩
      · exact ⟨c :: x, y, by simp [h]⟩
    · rintro ⟨x, y, h⟩
      cases x with
      | nil => exact Or.inl ⟨y, by simpa using h⟩
      | cons c' x' =>
        injection h with h1 h2
        exact Or.inr ⟨x', y, h2⟩

theorem startsWithPat_containsPat {pat s : List Char}
    (h : startsWithPat pat s = true) : containsPat pat s = true := by
  cases s with
  | nil => simpa [containsPat] using h
  | cons c cs => simp [containsPat, h]

theorem containsPat_nil_iff (pat : List Char) :
    containsPat pat [] = true ↔ pat = [] := by
  simp only [containsPat, startsWithPat_iff]
  constructor
  · rintro ⟨t, h⟩
    rcases List.append_eq_nil.mp h.symm with ⟨rfl, rfl⟩
    rfl
  · rintro rfl
    exact ⟨[], rfl⟩

theorem replaceAll_nil (pat repl : List Char) : replaceAll pat repl [] = [] := by
  rw [replaceAll]

theorem replaceAll_cons (pat repl : List Char) (c : Char) (cs : List Char) :
    replaceAll pat repl (c :: cs) =
      if pat ≠ [] ∧ startsWithPat pat (c :: cs) = true then
        repl ++ replaceAll pat repl (List.drop pat.length (c :: cs))
      else
        c :: replaceAll pat repl cs := by
  rw [replaceAll, dite_eq_ite]

theorem replaceAll_eq_self_of_not_contains (pat repl : List Char) :
    ∀ s : List Char, containsPat pat s = false → replaceAll pat repl s = s := by
  intro s
  induction s with
  | nil => intro _; exact replaceAll_nil pat repl
  | cons c cs ih =>
    intro h
    rw [containsPat, Bool.or_eq_false_iff] at h
    rw [replaceAll_cons, if_neg (by simp [h.1]), ih h.2]

theorem startsWithPat_append_left (p : List Char) :
    ∀ xs ys : List Char, p.length ≤ xs.length →
    startsWithPat p (xs ++ ys) = startsWithPat p xs := by
  induction p with
  | nil => intro xs ys _; simp [startsWithPat]
  | cons a ps ih =>
    intro xs ys h
    cases xs with
    | nil => simp at h
    | cons x xs' =>
      have h' : ps.length ≤ xs'.length := by
        simpa [Nat.succ_le_succ_iff] using h
      exact congrArg (fun z => a == x && z) (ih xs' ys h')

theorem replaceAll_append_head (pat repl : List Char) (hpat : pat ≠ []) (b : List Char) :
    replaceAll pat repl (pat ++ b) = repl ++ replaceAll pat repl b := by
  cases pat with
  | nil => exact absurd rfl hpat
  | cons a ps =>
    show replaceAll (a :: ps) repl (a :: (ps ++ b)) = repl ++ replaceAll (a :: ps) repl b
    rw [replaceAll_cons, if_pos ⟨hpat, (startsWithPat_iff _ _).mpr ⟨b, rfl⟩⟩]
    have hdrop : List.drop (a :: ps).length (a :: (ps ++ b)) = b := List.drop_left (a :: ps) b
    rw [hdrop]

theorem replaceAll_append_occ (pat repl : List Char) (hpat : pat ≠ []) :
    ∀ a b : List Char, onlyFinalMatch pat a →
    replaceAll pat repl (a ++ pat ++ b) = a ++ repl ++ replaceAll pat repl b := by
  intro a
  induction a with
  | nil =>
    intro b _
    simpa using replaceAll_append_head pat repl hpat b
  | cons c a' ih =>
    intro b h
    have hne : a' ++ pat ≠ [] := fun hh => hpat (List.append_eq_nil.mp hh).2
    have hd : ((c :: a') ++ pat).dropLast = c :: (a' ++ pat).dropLast := by
      simpa using List.dropLast_cons_of_ne_nil hne
    rw [onlyFinalMatch, hd, containsPat, Bool.or_eq_false_iff] at h
    obtain ⟨hsw0, hcont⟩ := h
    have key : c :: ((a' ++ pat) ++ b) =
        (c :: (a' ++ pat).dropLast) ++ ([(a' ++ pat).getLast hne] ++ b) := by
      rw [List.cons_append]
      congr 1
      have : (a' ++ pat).dropLast ++ ([(a' ++ pat).getLast hne] ++ b) = (a' ++ pat) ++ b := by
        rw [← List.append_assoc, List.dropLast_concat_getLast hne]
      exact this.symm
    have hlen : pat.length ≤ (c :: (a' ++ pat).dropLast).length := by
      simp only [List.length_cons, List.length_dropLast, List.length_append]
      have hp : 0 < pat.length := List.length_pos.mpr hpat
      omega
    have hsw : startsWithPat pat (c :: ((a' ++ pat) ++ b)) = false := by
      rw [key, startsWithPat_append_left pat _ _ hlen]
      exact hsw0
    have hmain : replaceAll pat repl (c :: ((a' ++ pat) ++ b)) =
        c :: replaceAll pat repl ((a' ++ pat) ++ b) := by
      rw [replaceAll_cons, if_neg]
      rintro ⟨-, hc⟩
      rw [hsw] at hc
      exact Bool.false_ne_true hc
    calc replaceAll pat repl (((c :: a') ++ pat) ++ b)
        = c :: replaceAll pat repl ((a' ++ pat) ++ b) := hmain
      _ = c :: ((a' ++ repl) ++ replaceAll pat repl b) := by rw [ih b hcont]
      _ = ((c :: a') ++ repl) ++ replaceAll pat repl b := rfl

theorem length_replaceAll_ge (pat repl : List Char) (hle : pat.length ≤ repl.length)
    (s : List Char) : s.length ≤ (replaceAll pat repl s).length := by
  induction s using replaceAll.induct pat repl with
  | case1 => simp [replaceAll_nil]
  | case2 c cs h ih =>
    rw [replaceAll_cons, if_pos h]
    obtain ⟨t, ht⟩ := (startsWithPat_iff _ _).mp h.2
    have hlen : pat.length ≤ cs.length + 1 := by
      have := congrArg List.length ht
      simp [List.length_append] at this
      omega
    simp only [List.length_append, List.length_drop, List.length_cons] at ih ⊢
    omega
  | case3 c cs h ih =>
    rw [replaceAll_cons, if_neg h]
    simp only [List.length_cons]
    omega

theorem length_replaceAll_gt (pat repl : List Char) (hpat : pat ≠ [])
    (hlt : pat.length < repl.length) (s : List Char)
    (hc : containsPat pat s = true) : s.length < (replaceAll pat repl s).length := by
  induction s using replaceAll.induct pat repl with
  | case1 => exact absurd ((containsPat_nil_iff pat).mp hc) hpat
  | case2 c cs h ih =>
    rw [replaceAll_cons, if_pos h]
    obtain ⟨t, ht⟩ := (startsWithPat_iff _ _).mp h.2
    have hlen : pat.length ≤ cs.length + 1 := by
      have := congrArg List.length ht
      simp [List.length_append] at this
      omega
    have hge := length_replaceAll_ge pat repl (Nat.le_of_lt hlt) (List.drop pat.length (c :: cs))
    simp only [List.length_append, List.length_drop, List.length_cons] at hge ⊢
    omega
  | case3 c cs h ih =>
    rw [replaceAll_cons, if_neg h]
    have hsw : startsWithPat pat (c :: cs) = false := by
      cases hs : startsWithPat pat (c :: cs) with
      | false => rfl
      | true => exact absurd ⟨hpat, hs⟩ h
    rw [containsPat, hsw, Bool.false_or] at hc
    simp only [List.length_cons]
    exact Nat.succ_lt_succ (ih hc)

theorem occurs_repl_replaceAll (pat repl : List Char) (hpat : pat ≠ [])
    (s : List Char) (hc : containsPat pat s = true) :
    Occurs repl (replaceAll pat repl s) := by
  induction s using replaceAll.induct pat repl with
  | case1 => exact absurd ((containsPat_nil_iff pat).mp hc) hpat
  | case2 c cs h ih =>
    rw [replaceAll_cons, if_pos h]
    exact ⟨[], replaceAll pat repl (List.drop pat.length (c :: cs)), by simp⟩
  | case3 c cs h ih =>
    have hsw : startsWithPat pat (c :: cs) = false := by
      cases hs : startsWithPat pat (c :: cs) with
      | false => rfl
      | true => exact absurd ⟨hpat, hs⟩ h
    rw [containsPat, hsw, Bool.false_or] at hc
    obtain ⟨x, y, hxy⟩ := ih hc
    rw [replaceAll_cons, if_neg h, hxy]
    exact ⟨c :: x, y, rfl⟩

theorem occurs_trans {q r s : List Char} (h1 : Occurs q r) (h2 : Occurs r s) :
    Occurs q s := by
  obtain ⟨x, y, rfl⟩ := h1
  obtain ⟨u, v, rfl⟩ := h2
  exact ⟨u ++ x, y ++ v, by simp [List.append_assoc]⟩

theorem replaceAll_append_occ' (pat repl : List Char) (hpat : pat ≠ []) (a b : List Char)
    (h : onlyFinalMatch pat a) :
    replaceAll pat repl (a ++ (pat ++ b)) = a ++ (repl ++ replaceAll pat repl b) := by
  have h1 := replaceAll_append_occ pat repl hpat a b h
  calc replaceAll pat repl (a ++ (pat ++ b))
      = replaceAll pat repl ((a ++ pat) ++ b) := by rw [List.append_assoc]
    _ = (a ++ repl) ++ replaceAll pat repl b := h1
    _ = a ++ (repl ++ replaceAll pat repl b) := List.append_assoc _ _ _

theorem format_eq_self_of_no_heading (t : String)
    (h1 : containsPat mrPhrase.data t.data = false)
    (h2 : containsPat dgPhrase.data t.data = false)
    (h3 : containsPat paPhrase.data t.data = false) :
    format_recommendation_text t = t := by
  apply String.ext
  show replaceAll paPhrase.data paHeading.data
      (replaceAll dgPhrase.data dgHeading.data
        (replaceAll mrPhrase.data mrHeading.data t.data)) = t.data
  rw [replaceAll_eq_self_of_not_contains _ _ _ h1,
    replaceAll_eq_self_of_not_contains _ _ _ h2,
    replaceAll_eq_self_of_not_contains _ _ _ h3]

theorem format_replaces_all_occurrences (a b c d e : String)
    (h1 : onlyFinalMatch mrPhrase.data a.data)
    (h2 : containsPat mrPhrase.data
      (b.data ++ (dgPhrase.data ++ (c.data ++ (dgPhrase.data ++
        (d.data ++ (paPhrase.data ++ e.data)))))) = false)
    (h3 : onlyFinalMatch dgPhrase.data (a.data ++ (mrHeading.data ++ b.data)))
    (h4 : onlyFinalMatch dgPhrase.data c.data)
    (h5 : containsPat dgPhrase.data (d.data ++ (paPhrase.data ++ e.data)) = false)
    (h6 : onlyFinalMatch paPhrase.data
      (a.data ++ (mrHeading.data ++ (b.data ++ (dgHeading.data ++
        (c.data ++ (dgHeading.data ++ d.data)))))))
    (h7 : containsPat paPhrase.data e.data = false) :
    format_recommendation_text
        (a ++ mrPhrase ++ b ++ dgPhrase ++ c ++ dgPhrase ++ d ++ paPhrase ++ e)
      = a ++ mrHeading ++ b ++ dgHeading ++ c ++ dgHeading ++ d ++ paHeading ++ e := by
  have hpat1 : mrPhrase.data ≠ [] := by decide
  have hpat2 : dgPhrase.data ≠ [] := by decide
  have hpat3 : paPhrase.data ≠ [] := by decide
  apply String.ext
  show replaceAll paPhrase.data paHeading.data
      (replaceAll dgPhrase.data dgHeading.data
        (replaceAll mrPhrase.data mrHeading.data
          (a ++ mrPhrase ++ b ++ dgPhrase ++ c ++ dgPhrase ++ d ++ paPhrase ++ e).data))
    = (a ++ mrHeading ++ b ++ dgHeading ++ c ++ dgHeading ++ d ++ paHeading ++ e).data
  have hX : (a ++ mrPhrase ++ b ++ dgPhrase ++ c ++ dgPhrase ++ d ++ paPhrase ++ e).data
      = a.data ++ (mrPhrase.data ++ (b.data ++ (dgPhrase.data ++ (c.data ++
          (dgPhrase.data ++ (d.data ++ (paPhrase.data ++ e.data))))))) := by
    simp only [String.data_append, List.append_assoc]
  rw [hX]
  rw [replaceAll_append_occ' _ _ hpat1 _ _ h1]
  rw [replaceAll_eq_self_of_not_contains _ _ _ h2]
  have e2 : a.data ++ (mrHeading.data ++ (b.data ++ (dgPhrase.data ++ (c.data ++
        (dgPhrase.data ++ (d.data ++ (paPhrase.data ++ e.data)))))))
      = (a.data ++ (mrHeading.data ++ b.data)) ++ (dgPhrase.data ++ (c.data ++
          (dgPhrase.data ++ (d.data ++ (paPhrase.data ++ e.data))))) := by
    simp only [List.append_assoc]
  rw [e2]
  rw [replaceAll_append_occ' _ _ hpat2 _ _ h3]
  rw [replaceAll_append_occ' _ _ hpat2 _ _ h4]
  rw [replaceAll_eq_self_of_not_contains _ _ _ h5]
  have e3 : (a.data ++ (mrHeading.data ++ b.data)) ++ (dgHeading.data ++ (c.data ++
        (dgHeading.data ++ (d.data ++ (paPhrase.data ++ e.data)))))
      = (a.data ++ (mrHeading.data ++ (b.data ++ (dgHeading.data ++ (c.data ++
          (dgHeading.data ++ d.data)))))) ++ (paPhrase.data ++ e.data) := by
    simp only [List.append_assoc]
  rw [e3]
  rw [replaceAll_append_occ' _ _ hpat3 _ _ h6]
  rw [replaceAll_eq_self_of_not_contains _ _ _ h7]
  simp only [String.data_append, List.append_assoc]

/-- Claim C6: `format_recommendation_text` is the identity on every text
containing none of the three heading phrases, and on any text it replaces
every literal occurrence of each phrase — including multiple occurrences and
occurrences inside unrelated sentences — with the corresponding heading
element, leaving all surrounding text verbatim.  The second conjunct
quantifies over an arbitrary decomposition `a ++ phrase ++ b ++ ...` whose
hypotheses say exactly that the displayed occurrences are the only ones
(each `onlyFinalMatch`/`containsPat … = false` hypothesis rules out any
further or overlapping occurrence in the corresponding region). -/
theorem format_recommendation_text_replaces_headings :
    (∀ t : String, containsAnyHeading t = false → format_recommendation_text t = t)
  ∧ ∀ a b c d e : String,
      onlyFinalMatch mrPhrase.data a.data →
      containsPat mrPhrase.data
        (b.data ++ (dgPhrase.data ++ (c.data ++ (dgPhrase.data ++
          (d.data ++ (paPhrase.data ++ e.data)))))) = false →
      onlyFinalMatch dgPhrase.data (a.data ++ (mrHeading.data ++ b.data)) →
      onlyFinalMatch dgPhrase.data c.data →
      containsPat dgPhrase.data (d.data ++ (paPhrase.data ++ e.data)) = false →
      onlyFinalMatch paPhrase.data
        (a.data ++ (mrHeading.data ++ (b.data ++ (dgHeading.data ++
          (c.data ++ (dgHeading.data ++ d.data)))))) →
      containsPat paPhrase.data e.data = false →
      format_recommendation_text
          (a ++ mrPhrase ++ b ++ dgPhrase ++ c ++ dgPhrase ++ d ++ paPhrase ++ e)
        = a ++ mrHeading ++ b ++ dgHeading ++ c ++ dgHeading ++ d ++ paHeading ++ e := by
  constructor
  · intro t h
    rw [containsAnyHeading, Bool.or_eq_false_iff, Bool.or_eq_false_iff] at h
    exact format_eq_self_of_no_heading t h.1.1 h.1.2 h.2
  · intro a b c d e h1 h2 h3 h4 h5 h6 h7
    exact format_replaces_all_occurrences a b c d e h1 h2 h3 h4 h5 h6 h7

set_option maxRecDepth 40000 in
/-- Witness for C6 at concrete inputs: a heading-free text is unchanged, and
a text with one `Medication Recommendations`, two `Dosage Guidelines` and one
`Practical Activities` occurrence is rewritten to the four heading elements
with the surrounding text intact. -/
theorem format_recommendation_text_replaces_headings_witness :
    format_recommendation_text "Take two tablets daily." = "Take two tablets daily."
  ∧ format_recommendation_text
        ("Intro " ++ mrPhrase ++ " one " ++ dgPhrase ++ " two " ++ dgPhrase ++
          " three " ++ paPhrase ++ " done")
      = "Intro " ++ mrHeading ++ " one " ++ dgHeading ++ " two " ++ dgHeading ++
          " three " ++ paHeading ++ " done" :=
  ⟨format_recommendation_text_replaces_headings.1 "Take two tablets daily." (by decide),
   format_recommendation_text_replaces_headings.2 "Intro " " one " " two " " three " " done"
     (by decide) (by decide) (by decide) (by decide) (by decide) (by decide) (by decide)⟩

theorem format_length_gt (v : String) (h : containsAnyHeading v = true) :
    v.data.length < (format_recommendation_text v).data.length := by
  have hpat1 : mrPhrase.data ≠ [] := by decide
  have hpat2 : dgPhrase.data ≠ [] := by decide
  have hpat3 : paPhrase.data ≠ [] := by decide
  have hlt1 : mrPhrase.data.length < mrHeading.data.length := by decide
  have hlt2 : dgPhrase.data.length < dgHeading.data.length := by decide
  have hlt3 : paPhrase.data.length < paHeading.data.length := by decide
  have hfmt : (format_recommendation_text v).data =
      replaceAll paPhrase.data paHeading.data
        (replaceAll dgPhrase.data dgHeading.data
          (replaceAll mrPhrase.data mrHeading.data v.data)) := rfl
  rw [containsAnyHeading, Bool.or_eq_true, Bool.or_eq_true] at h
  rw [hfmt]
  rcases h with (h | h) | h
  · have g1 := length_replaceAll_gt _ _ hpat1 hlt1 _ h
    have g2 := length_replaceAll_ge dgPhrase.data dgHeading.data (Nat.le_of_lt hlt2)
      (replaceAll mrPhrase.data mrHeading.data v.data)
    have g3 := length_replaceAll_ge paPhrase.data paHeading.data (Nat.le_of_lt hlt3)
      (replaceAll dgPhrase.data dgHeading.data
        (replaceAll mrPhrase.data mrHeading.data v.data))
    omega
  · cases c1 : containsPat mrPhrase.data v.data with
    | true =>
      have g1 := length_replaceAll_gt _ _ hpat1 hlt1 _ c1
      have g2 := length_replaceAll_ge dgPhrase.data dgHeading.data (Nat.le_of_lt hlt2)
        (replaceAll mrPhrase.data mrHeading.data v.data)
      have g3 := length_replaceAll_ge paPhrase.data paHeading.data (Nat.le_of_lt hlt3)
        (replaceAll dgPhrase.data dgHeading.data
          (replaceAll mrPhrase.data mrHeading.data v.data))
      omega
    | false =>
      rw [replaceAll_eq_self_of_not_contains _ _ _ c1]
      have g2 := length_replaceAll_gt _ _ hpat2 hlt2 _ h
      have g3 := length_replaceAll_ge paPhrase.data paHeading.data (Nat.le_of_lt hlt3)
        (replaceAll dgPhrase.data dgHeading.data v.data)
      omega
  · cases c1 : containsPat mrPhrase.data v.data with
    | true =>
      have g1 := length_replaceAll_gt _ _ hpat1 hlt1 _ c1
      have g2 := length_replaceAll_ge dgPhrase.data dgHeading.data (Nat.le_of_lt hlt2)
        (replaceAll mrPhrase.data mrHeading.data v.data)
      have g3 := length_replaceAll_ge paPhrase.data paHeading.data (Nat.le_of_lt hlt3)
        (replaceAll dgPhrase.data dgHeading.data
          (replaceAll mrPhrase.data mrHeading.data v.data))
      omega
    | false =>
      rw [replaceAll_eq_self_of_not_contains _ _ _ c1]
      cases c2 : containsPat dgPhrase.data v.data with
      | true =>
        have g2 := length_replaceAll_gt _ _ hpat2 hlt2 _ c2
        have g3 := length_replaceAll_ge paPhrase.data paHeading.data (Nat.le_of_lt hlt3)
          (replaceAll dgPhrase.data dgHeading.data v.data)
        omega
      | false =>
        rw [replaceAll_eq_self_of_not_contains _ _ _ c2]
        exact length_replaceAll_gt _ _ hpat3 hlt3 _ h

theorem format_preserves_heading (v : String) (h : containsAnyHeading v = true) :
    containsAnyHeading (format_recommendation_text v) = true := by
  have hpat1 : mrPhrase.data ≠ [] := by decide
  have hpat2 : dgPhrase.data ≠ [] := by decide
  have hpat3 : paPhrase.data ≠ [] := by decide
  have hfmt : (format_recommendation_text v).data =
      replaceAll paPhrase.data paHeading.data
        (replaceAll dgPhrase.data dgHeading.data
          (replaceAll mrPhrase.data mrHeading.data v.data)) := rfl
  rw [containsAnyHeading, Bool.or_eq_true, Bool.or_eq_true]
  rw [hfmt]
  cases c3 : containsPat paPhrase.data
      (replaceAll dgPhrase.data dgHeading.data
        (replaceAll mrPhrase.data mrHeading.data v.data)) with
  | true =>
    have o1 := occurs_repl_replaceAll paPhrase.data paHeading.data hpat3 _ c3
    have o2 : Occurs paPhrase.data paHeading.data := (containsPat_iff _ _).mp (by decide)
    exact Or.inr ((containsPat_iff _ _).mpr (occurs_trans o2 o1))
  | false =>
    rw [replaceAll_eq_self_of_not_contains _ _ _ c3]
    cases c2 : containsPat dgPhrase.data (replaceAll mrPhrase.data mrHeading.data v.data) with
    | true =>
      have o1 := occurs_repl_replaceAll dgPhrase.data dgHeading.data hpat2 _ c2
      have o2 : Occurs dgPhrase.data dgHeading.data := (containsPat_iff _ _).mp (by decide)
      exact Or.inl (Or.inr ((containsPat_iff _ _).mpr (occurs_trans o2 o1)))
    | false =>
      rw [replaceAll_eq_self_of_not_contains _ _ _ c2]
      cases c1 : containsPat mrPhrase.data v.data with
      | true =>
        have o1 := occurs_repl_replaceAll mrPhrase.data mrHeading.data hpat1 _ c1
        have o2 : Occurs mrPhrase.data mrHeading.data := (containsPat_iff _ _).mp (by decide)
        exact Or.inl (Or.inl ((containsPat_iff _ _).mpr (occurs_trans o2 o1)))
      | false =>
        rw [replaceAll_eq_self_of_not_contains _ _ _ c1] at c2 c3
        rw [replaceAll_eq_self_of_not_contains _ _ _ c2] at c3
        rw [containsAnyHeading, Bool.or_eq_true, Bool.or_eq_true] at h
        rcases h with (h | h) | h
        · rw [h] at c1; cases c1
        · rw [h] at c2; cases c2
        · rw [h] at c3; cases c3

/-- Claim C9: `format_recommendation_text` is not idempotent on text
containing any of the three heading phrases: each replacement HTML fragment
itself contains the original phrase, so for every text with at least one
occurrence, applying the formatter twice rewrites the phrase inside the
first replacement again and the result differs from applying it once. -/
theorem format_not_idempotent_on_headings (t : String) (h : containsAnyHeading t = true) :
    format_recommendation_text (format_recommendation_text t) ≠ format_recommendation_text t := by
  intro heq
  have hkeep := format_preserves_heading t h
  have hgt := format_length_gt (format_recommendation_text t) hkeep
  rw [heq] at hgt
  exact Nat.lt_irrefl _ hgt

/-- Witness for C9: the formatter is not idempotent on the text
`"Dosage Guidelines"` itself. -/
theorem format_not_idempotent_on_headings_witness :
    format_recommendation_text (format_recommendation_text "Dosage Guidelines")
      ≠ format_recommendation_text "Dosage Guidelines" :=
  format_not_idempotent_on_headings "Dosage Guidelines" (by decide)

theorem toDigitsCore_length_ge (b : Nat) : ∀ (fuel n : Nat) (acc : List Char),
    acc.length ≤ (Nat.toDigitsCore b fuel n acc).length := by
  intro fuel
  induction fuel with
  | zero => intro n acc; simp [Nat.toDigitsCore]
  | succ fuel ih =>
    intro n acc
    rw [Nat.toDigitsCore]
    by_cases hz : n / b = 0
    · simp [hz]
    · rw [if_neg hz]
      have h1 := ih (n / b) (Nat.digitChar (n % b) :: acc)
      simp only [List.length_cons] at h1
      omega

theorem toDigitsCore_length_succ (b fuel n : Nat) (acc : List Char) :
    acc.length + 1 ≤ (Nat.toDigitsCore b (fuel + 1) n acc).length := by
  rw [Nat.toDigitsCore]
  by_cases hz : n / b = 0
  · simp [hz]
  · simp only [if_neg hz]
    have h1 := toDigitsCore_length_ge b fuel (n / b) (Nat.digitChar (n % b) :: acc)
    simp only [List.length_cons] at h1
    omega

theorem natRepr_ne_empty (n : Nat) : Nat.repr n ≠ "" := by
  intro h
  have hd : (Nat.toDigits 10 n) = [] := by
    have := congrArg String.data h
    exact this
  have h1 := toDigitsCore_length_succ 10 n n []
  rw [Nat.toDigits] at hd
  rw [hd] at h1
  simp at h1

theorem natToString_ne_empty (n : Nat) : toString n ≠ "" := natRepr_ne_empty n

theorem splitOnDot_no_dot : ∀ l : List Char, '.' ∉ l → splitOnDot l = [l] := by
  intro l
  induction l with
  | nil => intro _; rfl
  | cons c cs ih =>
    intro h
    have hc : ¬(c = '.') := fun hh => h (by rw [hh]; exact List.mem_cons_self _ _)
    have hcs : '.' ∉ cs := fun hh => h (List.mem_cons_of_mem _ hh)
    rw [splitOnDot, if_neg hc, ih hcs]

theorem fileExtension_eq_lower_of_no_dot (name : String) (h : '.' ∉ name.data) :
    fileExtension name = lowerString name := by
  unfold fileExtension lowerString
  rw [splitOnDot_no_dot _ h]
  rfl

/-- Claim C10: for every uploaded filename containing no `.` character,
extension detection yields the entire lowercased filename (Python
`name.split('.')[-1]` is the whole string when there is no dot), so unless
that lowercased filename itself is `csv`, `xlsx` or `docx`, the unsupported
branch is taken and the ingested file text is the empty string. -/
theorem dotless_filename_extension (name : String) (parseOutcome : Option String)
    (h : '.' ∉ name.data) :
    fileExtension name = lowerString name
    ∧ (lowerString name ≠ "csv" → lowerString name ≠ "xlsx" → lowerString name ≠ "docx" →
        ingestUploadedFile (some (name, parseOutcome)) =
          (IngestMessage.unsupportedError, "")) := by
  have he := fileExtension_eq_lower_of_no_dot name h
  refine ⟨he, fun h1 h2 h3 => ?_⟩
  simp only [ingestUploadedFile]
  rw [he, if_neg h1, if_neg h2, if_neg h3]

/-- Witness for C10 at the dotless filename `README`. -/
theorem dotless_filename_extension_witness :
    fileExtension "README" = lowerString "README"
    ∧ ingestUploadedFile (some ("README", none)) = (IngestMessage.unsupportedError, "") :=
  ⟨(dotless_filename_extension "README" none (by decide)).1,
   (dotless_filename_extension "README" none (by decide)).2 (by decide) (by decide) (by decide)⟩

/-- Claim C4 counterexample: a `csv` upload whose parse raises produces the
very same `file_content` as uploading no file at all — the empty string — so
the failure value is not distinct from an empty-but-valid file text, and the
entry point takes the identical validation-warning branch in both cases
(with empty symptoms), never seeing the difference. -/
theorem parse_failure_text_eq_nofile_cex :
    (ingestUploadedFile (some ("exam.csv", none))).2 = (ingestUploadedFile none).2
    ∧ (ingestUploadedFile (some ("exam.csv", none))).2 = ""
    ∧ runPipeline ⟨"", none, none, "", ""⟩ (ingestUploadedFile (some ("exam.csv", none))).2 ""
        (fun _ => Except.error "no call") = (PipelineResult.warned, 0)
    ∧ runPipeline ⟨"", none, none, "", ""⟩ (ingestUploadedFile none).2 ""
        (fun _ => Except.error "no call") = (PipelineResult.warned, 0) :=
  ⟨rfl, rfl, rfl, rfl⟩

/-- Claim C4 (amended): for every `csv`/`xlsx` upload whose parse fails, the
ingestion block does show a parse-error message — a UI signal distinct from
the silent no-file case — but it stores the empty string as the file text,
identical to no file, so the distinction does not propagate to the pipeline
submission decision of the entry point. -/
theorem parse_failure_message_but_empty_text (name : String)
    (hext : fileExtension name = "csv" ∨ fileExtension name = "xlsx") :
    ingestUploadedFile (some (name, none)) = (IngestMessage.parseError, "")
    ∧ ingestUploadedFile none = (IngestMessage.noMessage, "")
    ∧ (ingestUploadedFile (some (name, none))).2 = (ingestUploadedFile none).2 := by
  rcases hext with h | h
  · have h1 : ingestUploadedFile (some (name, none)) = (IngestMessage.parseError, "") := by
      simp only [ingestUploadedFile]
      rw [if_pos h]
    exact ⟨h1, rfl, by rw [h1]; rfl⟩
  · have hne : fileExtension name ≠ "csv" := by
      intro hc
      rw [hc] at h
      exact absurd h (by decide)
    have h1 : ingestUploadedFile (some (name, none)) = (IngestMessage.parseError, "") := by
      simp only [ingestUploadedFile]
      rw [if_neg hne, if_pos h]
    exact ⟨h1, rfl, by rw [h1]; rfl⟩

/-- Witness for the amended C4 at the upload `exam.csv` with a failing parse. -/
theorem parse_failure_message_but_empty_text_witness :
    ingestUploadedFile (some ("exam.csv", none)) = (IngestMessage.parseError, "")
    ∧ ingestUploadedFile none = (IngestMessage.noMessage, "")
    ∧ (ingestUploadedFile (some ("exam.csv", none))).2 = (ingestUploadedFile none).2 :=
  parse_failure_message_but_empty_text "exam.csv" (Or.inl (by decide))

/-- Claim C5 counterexample: for the recognized-by-neither branch extension
`txt` (neither `csv` nor `xlsx`), ingestion does not return a placeholder
message naming the file: it produces the unsupported-type error and the
empty string, in which the filename does not occur. -/
theorem unsupported_ext_no_placeholder_cex :
    ingestUploadedFile (some ("notes.txt", none)) = (IngestMessage.unsupportedError, "")
    ∧ containsPat "notes.txt".data
        (ingestUploadedFile (some ("notes.txt", none))).2.data = false :=
  ⟨by decide, by decide⟩

/-- Claim C5 (amended): for every upload whose extension is neither `csv`
nor `xlsx`, no content extraction is ever attempted (the parse outcome is
never consulted); for extension `docx` the result is the placeholder message
naming the file, while for any other such extension the result is the
unsupported-type error with empty file text — a message that does not name
the file. -/
theorem non_tabular_upload_behavior (name : String) (p q : Option String)
    (h1 : fileExtension name ≠ "csv") (h2 : fileExtension name ≠ "xlsx") :
    ingestUploadedFile (some (name, p)) = ingestUploadedFile (some (name, q))
    ∧ (fileExtension name = "docx" →
        ingestUploadedFile (some (name, p)) =
          (IngestMessage.docxWarning, docxPlaceholder name)
        ∧ Occurs name.data (docxPlaceholder name).data)
    ∧ (fileExtension name ≠ "docx" →
        ingestUploadedFile (some (name, p)) = (IngestMessage.unsupportedError, "")) := by
  refine ⟨?_, fun h3 => ⟨?_, ?_⟩, fun h3 => ?_⟩
  · simp only [ingestUploadedFile, if_neg h1, if_neg h2]
  · simp only [ingestUploadedFile, if_neg h1, if_neg h2, if_pos ‹fileExtension name = "docx"›]
  · exact ⟨"Uploaded DOCX file: ".data,
      ". Content not parsed automatically in this demo.".data, rfl⟩
  · simp only [ingestUploadedFile, if_neg h1, if_neg h2,
      if_neg ‹fileExtension name ≠ "docx"›]

/-- Witness for the amended C5 at the upload `report.docx` (with a failing and
a succeeding parse outcome, which are not consulted). -/
theorem non_tabular_upload_behavior_witness :
    ingestUploadedFile (some ("report.docx", none)) =
      ingestUploadedFile (some ("report.docx", some "ignored"))
    ∧ ingestUploadedFile (some ("report.docx", none)) =
        (IngestMessage.docxWarning, docxPlaceholder "report.docx")
    ∧ Occurs "report.docx".data (docxPlaceholder "report.docx").data :=
  have h := non_tabular_upload_behavior "report.docx" none (some "ignored")
    (by decide) (by decide)
  ⟨h.1, (h.2.1 (by decide)).1, (h.2.1 (by decide)).2⟩

/-- Claim C1: for every `PatientContext`, the assembled prompt contains
exactly one `Label: value` entry per field (name, age, weight, gender,
history), in that fixed order, with the value replaced by `Not provided`
(`None provided` for history) exactly when the field is absent — never an
empty string, and never with absence coerced to a default: in particular
`age = some 0` renders as `0` and `weight = some "0.0"` renders as `0.0`,
not as the absence marker.  (The hypothesis `hw` records that a weight,
being the decimal rendering of a Python float, is never the empty string.) -/
theorem prompt_field_lines_spec (ctx : PatientContext) (file_content symptoms : String)
    (hw : ∀ w, ctx.weight = some w → w ≠ "") :
    ∃ v1 v2 v3 v4 v5 : String,
      assemblePrompt ctx file_content symptoms =
        promptPreamble
          ++ (("Patient Name: " ++ v1 ++ "\n")
              ++ ("Patient Age: " ++ v2 ++ "\n")
              ++ ("Patient Weight: " ++ v3 ++ " kg\n")
              ++ ("Patient Gender: " ++ v4 ++ "\n")
              ++ ("Medical History: " ++ v5 ++ "\n"))
          ++ (if file_content = "" then ""
              else "Uploaded Exam Results:\n" ++ file_content ++ "\n\n")
          ++ ("Symptoms/Condition: " ++ symptoms ++ "\n\nRecommendations:")
      ∧ (v1 ≠ "" ∧ (ctx.name = "" → v1 = "Not provided") ∧ (ctx.name ≠ "" → v1 = ctx.name))
      ∧ (v2 ≠ "" ∧ (ctx.age = none → v2 = "Not provided")
          ∧ (∀ a, ctx.age = some a → v2 = toString a) ∧ (ctx.age = some 0 → v2 = "0"))
      ∧ (v3 ≠ "" ∧ (ctx.weight = none → v3 = "Not provided")
          ∧ (∀ w, ctx.weight = some w → v3 = w) ∧ (ctx.weight = some "0.0" → v3 = "0.0"))
      ∧ (v4 ≠ "" ∧ (ctx.gender = "" → v4 = "Not provided") ∧ (ctx.gender ≠ "" → v4 = ctx.gender))
      ∧ (v5 ≠ "" ∧ (ctx.history = "" → v5 = "None provided")
          ∧ (ctx.history ≠ "" → v5 = ctx.history)) := by
  refine ⟨if ctx.name = "" then "Not provided" else ctx.name,
    (match ctx.age with | some a => toString a | none => "Not provided"),
    (match ctx.weight with | some w => w | none => "Not provided"),
    if ctx.gender = "" then "Not provided" else ctx.gender,
    if ctx.history = "" then "None provided" else ctx.history,
    rfl, ?_, ?_, ?_, ?_, ?_⟩
  · by_cases h : ctx.name = ""
    · rw [if_pos h]
      exact ⟨by decide, fun _ => rfl, fun hne => absurd h hne⟩
    · rw [if_neg h]
      exact ⟨h, fun he => absurd he h, fun _ => rfl⟩
  · cases hage : ctx.age with
    | none =>
      refine ⟨?_, ?_, ?_, ?_⟩
      · decide
      · intro _
        rfl
      · intro a ha
        cases ha
      · intro ha
        cases ha
    | some a =>
      refine ⟨?_, ?_, ?_, ?_⟩
      · exact natToString_ne_empty a
      · intro hc
        cases hc
      · intro a' ha'
        injection ha' with h'
        rw [h']
      · intro h0
        injection h0 with h'
        subst h'
        rfl
  · cases hwt : ctx.weight with
    | none =>
      refine ⟨?_, ?_, ?_, ?_⟩
      · decide
      · intro _
        rfl
      · intro w hc
        cases hc
      · intro hc
        cases hc
    | some w =>
      refine ⟨?_, ?_, ?_, ?_⟩
      · exact hw w hwt
      · intro hc
        cases hc
      · intro w' hc
        injection hc
      · intro hc
        injection hc
  · by_cases h : ctx.gender = ""
    · rw [if_pos h]
      exact ⟨by decide, fun _ => rfl, fun hne => absurd h hne⟩
    · rw [if_neg h]
      exact ⟨h, fun he => absurd he h, fun _ => rfl⟩
  · by_cases h : ctx.history = ""
    · rw [if_pos h]
      exact ⟨by decide, fun _ => rfl, fun hne => absurd h hne⟩
    · rw [if_neg h]
      exact ⟨h, fun he => absurd he h, fun _ => rfl⟩

/-- Witness for C1 at a context with all fields absent except a weight of
`0.0` (which must render as the number, not as the absence marker). -/
theorem prompt_field_lines_spec_witness :
    ∃ v1 v2 v3 v4 v5 : String,
      assemblePrompt ⟨"", none, some "0.0", "", ""⟩ "" "headache" =
        promptPreamble
          ++ (("Patient Name: " ++ v1 ++ "\n")
              ++ ("Patient Age: " ++ v2 ++ "\n")
              ++ ("Patient Weight: " ++ v3 ++ " kg\n")
              ++ ("Patient Gender: " ++ v4 ++ "\n")
              ++ ("Medical History: " ++ v5 ++ "\n"))
          ++ (if ("" : String) = "" then ""
              else "Uploaded Exam Results:\n" ++ "" ++ "\n\n")
          ++ ("Symptoms/Condition: " ++ "headache" ++ "\n\nRecommendations:")
      ∧ (v1 ≠ "" ∧ ((PatientContext.mk "" none (some "0.0") "" "").name = "" → v1 = "Not provided")
          ∧ ((PatientContext.mk "" none (some "0.0") "" "").name ≠ "" → v1 = "") )
      ∧ (v2 ≠ "" ∧ ((PatientContext.mk "" none (some "0.0") "" "").age = none → v2 = "Not provided")
          ∧ (∀ a, (PatientContext.mk "" none (some "0.0") "" "").age = some a → v2 = toString a)
          ∧ ((PatientContext.mk "" none (some "0.0") "" "").age = some 0 → v2 = "0"))
      ∧ (v3 ≠ "" ∧ ((PatientContext.mk "" none (some "0.0") "" "").weight = none → v3 = "Not provided")
          ∧ (∀ w, (PatientContext.mk "" none (some "0.0") "" "").weight = some w → v3 = w)
          ∧ ((PatientContext.mk "" none (some "0.0") "" "").weight = some "0.0" → v3 = "0.0"))
      ∧ (v4 ≠ "" ∧ ((PatientContext.mk "" none (some "0.0") "" "").gender = "" → v4 = "Not provided")
          ∧ ((PatientContext.mk "" none (some "0.0") "" "").gender ≠ "" → v4 = ""))
      ∧ (v5 ≠ "" ∧ ((PatientContext.mk "" none (some "0.0") "" "").history = "" → v5 = "None provided")
          ∧ ((PatientContext.mk "" none (some "0.0") "" "").history ≠ "" → v5 = "")) :=
  prompt_field_lines_spec ⟨"", none, some "0.0", "", ""⟩ "" "headache"
    (fun w h => by injection h with h'; rw [← h']; decide)

/-- Claim C3: for every request in which the symptom text is empty and the
ingested file text is empty, the Generate-Recommendation handler rejects the
request with the validation warning and the generation backend is never
invoked (zero backend calls). -/
theorem empty_request_rejected (ctx : PatientContext) (file_content symptoms : String)
    (backend : String → Except String String)
    (h1 : symptoms = "") (h2 : file_content = "") :
    runPipeline ctx file_content symptoms backend = (PipelineResult.warned, 0) := by
  subst h1
  subst h2
  rfl

/-- Witness for C3: the empty request is rejected even with a backend that
would happily answer. -/
theorem empty_request_rejected_witness :
    runPipeline ⟨"", none, none, "", ""⟩ "" "" (fun _ => Except.ok "an answer")
      = (PipelineResult.warned, 0) :=
  empty_request_rejected ⟨"", none, none, "", ""⟩ "" "" (fun _ => Except.ok "an answer") rfl rfl

/-- Claim C7 counterexample: a backend response carrying an empty extracted
text is not turned into a malformed-response failure — the handler formats
and displays it as an (empty) success, with one backend call made. -/
theorem empty_text_shown_as_success_cex :
    runPipeline ⟨"", none, none, "", ""⟩ "" "persistent cough" (fun _ => Except.ok "")
      = (PipelineResult.shown "", 1) := by
  have hfmt : format_recommendation_text "" = "" :=
    format_eq_self_of_no_heading "" (by decide) (by decide) (by decide)
  show (PipelineResult.shown (format_recommendation_text ""), 1) = (PipelineResult.shown "", 1)
  rw [hfmt]

/-- Claim C7 (amended): exceptions raised by the generation call — including
responses without usable text, which the client library surfaces as raised
exceptions — are caught and shown as an error result; but a response whose
extracted text is the empty string undergoes no validation and is displayed
as an empty success, never as a failure. -/
theorem generation_outcome_handling (ctx : PatientContext) (file_content symptoms : String)
    (backend : String → Except String String)
    (hreq : ¬(symptoms = "" ∧ file_content = "")) :
    (∀ e, backend (assemblePrompt ctx file_content symptoms) = Except.error e →
        runPipeline ctx file_content symptoms backend = (PipelineResult.errorShown e, 1))
    ∧ (backend (assemblePrompt ctx file_content symptoms) = Except.ok "" →
        runPipeline ctx file_content symptoms backend = (PipelineResult.shown "", 1)) := by
  constructor
  · intro e he
    simp only [runPipeline]
    rw [if_neg hreq, he]
  · intro he
    have hfmt : format_recommendation_text "" = "" :=
      format_eq_self_of_no_heading "" (by decide) (by decide) (by decide)
    simp only [runPipeline]
    rw [if_neg hreq, he]
    show (PipelineResult.shown (format_recommendation_text ""), 1) = (PipelineResult.shown "", 1)
    rw [hfmt]

/-- Witness for the amended C7: a raising backend produces the error result. -/
theorem generation_outcome_handling_witness :
    runPipeline ⟨"", none, none, "", ""⟩ "" "fever" (fun _ => Except.error "boom")
      = (PipelineResult.errorShown "boom", 1) :=
  (generation_outcome_handling ⟨"", none, none, "", ""⟩ "" "fever"
    (fun _ => Except.error "boom") (by decide)).1 "boom" rfl

/-- Claim C8: whenever no backend credential is present (the secrets lookup
raises at module initialization), the app shows the configuration error and
stops before any widget or handler code runs, so invoking the app yields the
configuration-error outcome and zero backend calls are ever made. -/
theorem missing_credential_stops_app (ctx : PatientContext) (file_content symptoms : String)
    (backend : String → Except String String) (apiKey : Option String)
    (h : apiKey = none) :
    runApp apiKey ctx file_content symptoms backend = (AppResult.configErrorStopped, 0) := by
  subst h
  rfl

/-- Witness for C8: with no credential the app stops with zero backend calls
even for a non-empty request and an answering backend. -/
theorem missing_credential_stops_app_witness :
    runApp none ⟨"", none, none, "", ""⟩ "" "fever" (fun _ => Except.ok "text")
      = (AppResult.configErrorStopped, 0) :=
  missing_credential_stops_app ⟨"", none, none, "", ""⟩ "" "fever"
    (fun _ => Except.ok "text") none rfl

set_option maxRecDepth 100000 in
/-- Claim C2: for the context {name = Jane Doe, age = 34, weight = 62.5,
gender = Female, history = asthma}, no uploaded file, and symptoms
`persistent cough for 5 days`, the assembled prompt contains the lines
`Patient Name: Jane Doe`, `Patient Age: 34`, `Patient Weight: 62.5 kg`,
`Patient Gender: Female`, `Medical History: asthma`, and ends with
`Symptoms/Condition: persistent cough for 5 days` followed by a blank line
and `Recommendations:`. -/
theorem prompt_golden_janeDoe :
    Occurs "Patient Name: Jane Doe\n".data janePrompt.data
    ∧ Occurs "Patient Age: 34\n".data janePrompt.data
    ∧ Occurs "Patient Weight: 62.5 kg\n".data janePrompt.data
    ∧ Occurs "Patient Gender: Female\n".data janePrompt.data
    ∧ Occurs "Medical History: asthma\n".data janePrompt.data
    ∧ ∃ x : String, janePrompt =
        x ++ "Symptoms/Condition: persistent cough for 5 days\n\nRecommendations:" := by
  refine ⟨?_, ?_, ?_, ?_, ?_, ?_⟩
  · exact (containsPat_iff _ _).mp (by decide)
  · exact (containsPat_iff _ _).mp (by decide)
  · exact (containsPat_iff _ _).mp (by decide)
  · exact (containsPat_iff _ _).mp (by decide)
  · exact (containsPat_iff _ _).mp (by decide)
  · exact ⟨promptPreamble ++
      "Patient Name: Jane Doe\nPatient Age: 34\nPatient Weight: 62.5 kg\nPatient Gender: Female\nMedical History: asthma\n",
      rfl⟩
